import Mathlib

/-
  Verification development for the docx-to-markdown renderer.

  The Python sources are embedded shallowly over `List Char` (Python `str`),
  `Int` (Python `int`), association lists (Python `dict`, preserving the
  overwrite-in-place update of CPython dicts) and `Except PyErr` (Python
  exceptions).  Every definition is translated from the corresponding
  function in the repository sources; the file and line of the source are
  recorded next to each definition.
-/

set_option maxRecDepth 10000
set_option maxHeartbeats 1000000

/-- Convert a string literal to the `List Char` representation used
throughout this development. -/
def S (s : String) : List Char := s.toList

/-- The left-brace character (written out so that brace characters never
appear inside string literals in this file). -/
def lbrace : Char := Char.ofNat 123

/-- The right-brace character. -/
def rbrace : Char := Char.ofNat 125

/-- Python `\s` / `str.strip()` whitespace over the ASCII range:
space, tab, newline, carriage return, vertical tab, form feed. -/
def isWs (c : Char) : Bool :=
  c = ' ' || c = '\t' || c = '\n' || c = '\r' || c = '\x0b' || c = '\x0c'

/-- Length of the maximal whitespace run at the head of a list
(the extent matched by a greedy `\s*`). -/
def wsRunLen : List Char → Nat
  | [] => 0
  | c :: cs => if isWs c then wsRunLen cs + 1 else 0

/-- Drop leading whitespace (Python `str.lstrip()`). -/
def trimLeft : List Char → List Char
  | [] => []
  | c :: cs => if isWs c then trimLeft cs else c :: cs

/-- Python `str.strip()`: drop leading and trailing whitespace. -/
def pyStrip (l : List Char) : List Char :=
  ((trimLeft ((trimLeft l).reverse)).reverse)

/-- Helper for `splitWs`: `acc` holds the (reversed) word being read. -/
def splitWsGo : List Char → List Char → List (List Char)
  | acc, [] => if acc = [] then [] else [acc.reverse]
  | acc, c :: cs =>
    if isWs c then
      if acc = [] then splitWsGo [] cs else acc.reverse :: splitWsGo [] cs
    else splitWsGo (c :: acc) cs

/-- Python `str.split()` with no argument: split on whitespace runs,
discarding empty words. -/
def splitWs (l : List Char) : List (List Char) := splitWsGo [] l

/-- Python `pat in s` substring test (for the nonempty literals used here). -/
def containsSub (pat : List Char) : List Char → Bool
  | [] => pat.isEmpty
  | c :: cs => pat.isPrefixOf (c :: cs) || containsSub pat cs

/-- Fuel-driven worker for `replaceAll`; the fuel is an upper bound on the
number of scan steps, each of which consumes at least one input character. -/
def replaceAllGo (pat repl : List Char) : Nat → List Char → List Char
  | 0, s => s
  | _ + 1, [] => []
  | n + 1, c :: cs =>
    if pat.isPrefixOf (c :: cs) then
      repl ++ replaceAllGo pat repl n ((c :: cs).drop pat.length)
    else c :: replaceAllGo pat repl n cs

/-- Python `str.replace(pat, repl)`: leftmost, non-overlapping, repeated
replacement.  All patterns used in this development are nonempty literals,
for which `s.length` scan steps always suffice. -/
def replaceAll (pat repl s : List Char) : List Char :=
  replaceAllGo pat repl s.length s

/-- Association-list lookup: Python `d.get(k)` / `d[k]`. -/
def lookupA {α β : Type} [DecidableEq α] : List (α × β) → α → Option β
  | [], _ => none
  | (k, v) :: rest, k' => if k = k' then some v else lookupA rest k'

/-- Association-list store: Python `d[k] = v` (overwrites in place,
preserving insertion order, as CPython dicts do). -/
def setA {α β : Type} [DecidableEq α] : List (α × β) → α → β → List (α × β)
  | [], k, v => [(k, v)]
  | (k', v') :: rest, k, v =>
    if k' = k then (k, v) :: rest else (k', v') :: setA rest k v

/-- Numeric value of a digit string (Python `int(...)` on a `\d+` match). -/
def digitsVal (l : List Char) : Nat :=
  l.foldl (fun a c => 10 * a + (c.toNat - 48)) 0

/-- Take the maximal run of decimal digits at the head (greedy `\d+`). -/
def takeDigits : List Char → List Char
  | [] => []
  | c :: cs => if c.isDigit then c :: takeDigits cs else []

/-- Python `str.lower()` over the ASCII range. -/
def lowerStr (l : List Char) : List Char := l.map Char.toLower

/-- Python exceptions that the embedded code can raise. -/
inductive PyErr where
  | keyError
  | assertError
  | indexError
  | valueError
  deriving DecidableEq, Repr

deriving instance DecidableEq for Except

/-
  ===============================================================
  src/docx/text/parfmt.py — ParagraphProperties and BookmarkStart
  ===============================================================
-/

/-- Numbering-properties reference (`w:numPr`): a numbering id and a raw
level, both Python ints (`numPr.numId.val`, `numPr.ilvl.val`). -/
structure NumPr where
  numId : Int
  ilvl : Int
  deriving DecidableEq, Repr

/-- The class-wide numbering-continuity state of `ParagraphProperties`
(parfmt.py lines 408-414): `saved_numPr`, `saved_ilvl_map`,
`saved_ilvl_numPr`, `saved_ilvl_actual`. -/
structure NumState where
  saved_numPr : Option NumPr
  saved_ilvl_map : List (Int × Int)
  saved_ilvl_numPr : Int
  saved_ilvl_actual : Int
  deriving DecidableEq, Repr

/-- The initial (cleared) numbering-continuity state: `None`, empty map,
`-1`, `-1` (parfmt.py lines 409-414 and 424-427). -/
def initNumState : NumState := ⟨none, [], -1, -1⟩

/-- The numbering definitions visible to `ParagraphProperties.markdown`:
`nums` maps a `w:numId` to its `w:abstractNumId` (`num_having_numId`
followed by `abstractNumId.val`), and `lvlFmts` records, per
`(abstractNumId, ilvl)` pair, the `w:numFmt/@w:val` strings that the XPath
query of parfmt.py lines 470-472 would return, in document order. -/
structure Numbering where
  nums : List (Int × Int)
  lvlFmts : List ((Int × Int) × List Char)

namespace ParagraphProperties

/-- `ParagraphProperties._level_and_special` (parfmt.py lines 390-406):
match the style name against `(Heading|Annex|Appendix)\s*(\d+|Heading)`
(anchored at the start) and derive the heading level and the special
classification.  The three first-group alternatives are mutually exclusive
as prefixes, and the greedy `\s*` never needs to backtrack because neither
a digit nor `H` is whitespace, so the match is computed directly. -/
def level_and_special (styleName : List Char) : Nat × List Char :=
  let g1rest : Option (List Char × List Char) :=
    if (S ("Heading")).isPrefixOf styleName then
      some (S ("Heading"), styleName.drop 7)
    else if (S ("Annex")).isPrefixOf styleName then
      some (S ("Annex"), styleName.drop 5)
    else if (S ("Appendix")).isPrefixOf styleName then
      some (S ("Appendix"), styleName.drop 8)
    else none
  match g1rest with
  | none => (0, [])
  | some (g1, rest) =>
    let rest' := rest.drop (wsRunLen rest)
    let ds := takeDigits rest'
    let lvl : Option Nat :=
      if ds ≠ [] then some (digitsVal ds)
      else if (S ("Heading")).isPrefixOf rest' then some 1
      else none
    match lvl with
    | none => (0, [])
    | some level =>
      let special :=
        if (g1 = S ("Annex") ∨ g1 = S ("Appendix")) ∧ level = 1 then
          lowerStr g1
        else []
      (level, special)

/-- Lines 481-486 of parfmt.py: derive the actual nesting level from the
raw `ilvl`.  A raw level strictly above the last-seen one increments the
running counter and records the new depth for that raw level; a raw level
strictly below restores the previously recorded depth for it (raising
`KeyError` if none was recorded); an equal raw level leaves the depth
unchanged.  Line 486 then records the raw level as last seen. -/
def deriveActual (ilvl : Int) (s : NumState) : Except PyErr NumState :=
  let step : Except PyErr NumState :=
    if ilvl > s.saved_ilvl_numPr then
      .ok { s with
        saved_ilvl_actual := s.saved_ilvl_actual + 1,
        saved_ilvl_map :=
          setA s.saved_ilvl_map ilvl (s.saved_ilvl_actual + 1) }
    else if ilvl < s.saved_ilvl_numPr then
      match lookupA s.saved_ilvl_map ilvl with
      | none => .error .keyError
      | some a => .ok { s with saved_ilvl_actual := a }
    else .ok s
  step.map (fun s1 => { s1 with saved_ilvl_numPr := ilvl })

/-- Lines 446-493 of parfmt.py: the part of `ParagraphProperties.markdown`
that runs once a (possibly saved) `numPr` is in hand; `s` is the state
after line 443 has stored that `numPr`. -/
def markdownNumbered (numPr : NumPr) (nb : Numbering) (s : NumState) :
    Except PyErr (List Char) × NumState :=
  -- lines 446-449: numId zero means no numbering
  if numPr.numId = 0 then (.ok [], s)
  else
    -- lines 459-460: num_having_numId raises on an unknown numId
    match lookupA nb.nums numPr.numId with
    | none => (.error .keyError, s)
    | some abstractNumId =>
      -- lines 470-475
      let numFmts :=
        (nb.lvlFmts.filter
          (fun e => e.1 = (abstractNumId, numPr.ilvl))).map (·.2)
      match numFmts with
      | [] => (.ok [], s)
      | numFmt :: _ =>
        -- line 476
        if numFmt ∉ [S ("bullet"), S ("decimal"), S ("lowerLetter"),
            S ("lowerRoman")] then
          (.error .assertError, s)
        else
          -- lines 481-486
          match deriveActual numPr.ilvl s with
          | .error e => (.error e, s)
          | .ok s2 =>
            -- lines 491-493
            let indent :=
              List.replicate (4 * s2.saved_ilvl_actual).toNat ' '
            let pre :=
              if numFmt = S ("bullet") then S ("* ") else S ("#. ")
            (.ok (indent ++ pre), s2)

/-- `ParagraphProperties.markdown` (parfmt.py lines 416-493), with the
class-wide mutable state made explicit.  Returns the produced markdown
prefix (or the Python exception raised) together with the state as left
behind at the corresponding exit point.  `4 * saved_ilvl_actual * ' '` is
rendered through `Int.toNat`, matching Python's empty result for a
negative repetition count. -/
def markdown (styleName : List Char) (ppNumPr : Option NumPr)
    (nb : Numbering) (s0 : NumState) : Except PyErr (List Char) × NumState :=
  -- lines 423-427: clear the saved state unless this is a List Paragraph
  let s := if styleName ≠ S ("List Paragraph") then initNumState else s0
  -- lines 430-432: headings return early
  let lv := (level_and_special styleName).1
  if lv > 0 then (.ok (List.replicate lv '#' ++ [' ']), s)
  else
    -- lines 438-442: fall back on the saved numPr
    let numPrO := match ppNumPr with
      | some np => some np
      | none => s.saved_numPr
    match numPrO with
    | none => (.ok [], s)
    | some numPr =>
      -- line 443: store the numPr, then continue with lines 446-493
      markdownNumbered numPr nb { s with saved_numPr := some numPr }

/-- `ParagraphProperties.markdown_suffix` (parfmt.py lines 495-513). -/
def markdown_suffix (styleName : List Char) (ppNumPr : Option NumPr) :
    List Char :=
  let special := (level_and_special styleName).2
  let classes :=
    (if special ≠ [] then [special] else []) ++
    (match ppNumPr with
     | some np => if np.numId = 0 then [S ("unnumbered")] else []
     | none => [])
  if classes ≠ [] then
    [' ', lbrace] ++
      (List.intercalate [' '] (classes.map (fun c => '.' :: c))) ++ [rbrace]
  else []

end ParagraphProperties

/-- Process one run of consecutive `List Paragraph` paragraphs, each
carrying `w:numPr` with `numId = 1` and the given raw `ilvl`, through
`ParagraphProperties.markdown`, starting from the cleared state, and
record the normalized depth (`saved_ilvl_actual`) left by each paragraph. -/
def runListDepths (nb : Numbering) (ilvls : List Int) : List Int :=
  (ilvls.foldl
    (fun (acc : NumState × List Int) i =>
      let r := ParagraphProperties.markdown (S ("List Paragraph"))
        (some ⟨1, i⟩) nb acc.1
      (r.2, acc.2 ++ [r.2.saved_ilvl_actual]))
    (initNumState, [])).2

/-- A minimal numbering part: `numId 1` maps to `abstractNumId 0`, whose
levels 0, 1 and 2 are all bullet lists. -/
def nbBullets : Numbering :=
  ⟨[(1, 0)],
   [((0, 0), S ("bullet")), ((0, 1), S ("bullet")), ((0, 2), S ("bullet"))]⟩

/-- `BookmarkStart.__init__` (parfmt.py lines 345-349): registration of a
bookmark name in the class-wide `bookmarks` dict is the unconditional
store `cls.bookmarks[self._start.name] = self`.  Nodes are identified by
a numeric id. -/
def BookmarkStart.register (bookmarks : List (List Char × Nat))
    (name : List Char) (node : Nat) : List (List Char × Nat) :=
  setA bookmarks name node

/-- Storing a key always makes it retrievable with the stored value
(CPython dict store/lookup). -/
theorem lookupA_setA {α β : Type} [DecidableEq α]
    (m : List (α × β)) (k : α) (v : β) : lookupA (setA m k v) k = some v := by
  induction m with
  | nil => simp [setA, lookupA]
  | cons p rest ih =>
    obtain ⟨k', v'⟩ := p
    by_cases h : k' = k
    · simp [setA, h, lookupA]
    · simp [setA, h, lookupA, ih]

/-- C1 (amended): for the run of raw numbering levels `[0,0,1,1,0,2,1]` on
consecutive `List Paragraph` paragraphs, `ParagraphProperties.markdown`
assigns the normalized depths `[0,0,1,1,0,1,1]`: the running depth counter
is incremented from the current depth whenever a raw level strictly
greater than the last-seen raw level is encountered (whether or not that
raw level was seen before), and a raw level smaller than the last-seen one
restores the depth previously recorded for it; so raw level `2` entered
from depth `0` is assigned depth `1`, and revisiting raw level `1`
afterwards restores depth `1`. -/
theorem numbering_depth_normalization_amended :
    runListDepths nbBullets [0, 0, 1, 1, 0, 2, 1] = [0, 0, 1, 1, 0, 1, 1] := by
  decide

/-- C1 (counterexample): the depths assigned to the raw-level run
`[0,0,1,1,0,2,1]` are not `[0,0,1,1,0,2,1]` as the claim states (the sixth
paragraph, raw level `2` entered from depth `0`, receives depth `1`). -/
theorem numbering_depth_normalization_counterexample :
    runListDepths nbBullets [0, 0, 1, 1, 0, 2, 1] ≠ [0, 0, 1, 1, 0, 2, 1] := by
  decide

/-- C2 (amended): registering a duplicate bookmark name is not an error,
and the registry then maps the name to the node of the *latest*
registration: `BookmarkStart.__init__` stores unconditionally, so a later
registration overwrites the earlier one. -/
theorem bookmark_register_last_wins (bm : List (List Char × Nat))
    (name : List Char) (a b : Nat) :
    lookupA (BookmarkStart.register (BookmarkStart.register bm name a) name b)
      name = some b := by
  simpa [BookmarkStart.register] using
    lookupA_setA (setA bm name a) name b

/-- C2 (counterexample): after registering node `0` and then node `1`
under the same name, the registry maps the name to node `1`, not to the
node of the first registration. -/
theorem bookmark_register_counterexample :
    lookupA (BookmarkStart.register (BookmarkStart.register [] (S ("n")) 0)
      (S ("n")) 1) (S ("n")) ≠ some 0 := by
  decide

/-- C6: a paragraph styled `Heading 2` produces the depth-2 heading marker
`## `; a paragraph styled `Annex Heading` produces the depth-1 marker `# `
together with the `annex` classification suffix, while a paragraph styled
`Heading 1` produces the depth-1 marker with no classification suffix. -/
theorem heading_styles_markers (nb : Numbering) (s : NumState)
    (pnum : Option NumPr) :
    (ParagraphProperties.markdown (S ("Heading 2")) pnum nb s).1 =
        .ok (S ("## ")) ∧
    (ParagraphProperties.markdown (S ("Annex Heading")) pnum nb s).1 =
        .ok (S ("# ")) ∧
    ParagraphProperties.markdown_suffix (S ("Annex Heading")) none =
        [' ', lbrace] ++ S (".annex") ++ [rbrace] ∧
    (ParagraphProperties.markdown (S ("Heading 1")) pnum nb s).1 =
        .ok (S ("# ")) ∧
    ParagraphProperties.markdown_suffix (S ("Heading 1")) none = [] := by
  refine ⟨rfl, rfl, by decide, rfl, by decide⟩

/-- Deriving the actual nesting level never touches the saved `numPr`. -/
theorem deriveActual_saved_numPr {ilvl : Int} {s s1 : NumState}
    (h : ParagraphProperties.deriveActual ilvl s = .ok s1) :
    s1.saved_numPr = s.saved_numPr := by
  unfold ParagraphProperties.deriveActual at h
  split at h
  · simp only [Except.map] at h
    cases h
    rfl
  · split at h
    · split at h
      · simp [Except.map] at h
      · simp only [Except.map] at h
        cases h
        rfl
    · simp only [Except.map] at h
      cases h
      rfl

/-- The numbered tail of `ParagraphProperties.markdown` never changes the
saved `numPr` stored at its entry. -/
theorem markdownNumbered_saved_numPr (numPr : NumPr) (nb : Numbering)
    (s : NumState) :
    ((ParagraphProperties.markdownNumbered numPr nb s).2).saved_numPr =
      s.saved_numPr := by
  unfold ParagraphProperties.markdownNumbered
  split
  · rfl
  · split
    · rfl
    · split
      · simp only []
        split
        · rfl
        · split <;> rfl
      · rename_i s2 heq
        simp only []
        split
        · rfl
        · split
          · rfl
          · exact deriveActual_saved_numPr heq

/-- C9 (amended): the numbering-continuity state is cleared to its initial
empty values at the start of processing exactly when the paragraph style is
not `List Paragraph`; it is not cleared for a `List Paragraph` paragraph,
whose saved numbering properties are retained (and fall back into use when
the paragraph carries none of its own).  The state does not otherwise
persist unchanged: processing a paragraph that carries (or inherits)
numbering properties re-populates the saved `numPr` and the level maps, so
even a non-list paragraph with its own numbering leaves a non-empty state
behind (see the counterexample). -/
theorem numbering_state_reset_amended (nb : Numbering) (s : NumState)
    (np : NumPr) (h : s.saved_numPr = some np) :
    (ParagraphProperties.markdown (S ("Normal")) none nb s).2 =
      initNumState ∧
    ((ParagraphProperties.markdown (S ("List Paragraph")) none nb s).2
      ).saved_numPr = some np := by
  constructor
  · rfl
  · obtain ⟨sn, m, l, a⟩ := s
    cases h
    show ((ParagraphProperties.markdownNumbered np nb
      ⟨some np, m, l, a⟩).2).saved_numPr = some np
    exact markdownNumbered_saved_numPr np nb ⟨some np, m, l, a⟩

/-- C9 (counterexample): processing a paragraph whose style is `Normal`
(not the designated list style) but which carries its own numbering
properties does not leave the state at its initial empty values — the
state is cleared at entry and then re-populated — refuting the claim that
the state "is reset to its initial empty values exactly when a paragraph
with any other style is processed". -/
theorem numbering_state_reset_counterexample :
    (ParagraphProperties.markdown (S ("Normal")) (some ⟨1, 0⟩) nbBullets
      initNumState).2 ≠ initNumState := by
  decide

/-- Witness for the amended C9 theorem at a concrete saved state. -/
theorem numbering_state_reset_witness :
    (ParagraphProperties.markdown (S ("Normal")) none nbBullets
      ⟨some ⟨1, 0⟩, [], -1, -1⟩).2 = initNumState ∧
    ((ParagraphProperties.markdown (S ("List Paragraph")) none nbBullets
      ⟨some ⟨1, 0⟩, [], -1, -1⟩).2).saved_numPr = some ⟨1, 0⟩ :=
  numbering_state_reset_amended nbBullets ⟨some ⟨1, 0⟩, [], -1, -1⟩ ⟨1, 0⟩ rfl

/-
  ==========================================================
  src/docx/text/field.py and src/docx/text/paragraph.py —
  the field-code loop of Paragraph.markdown
  ==========================================================
-/

/-- Python truthiness of an optional string (`if anchor:`):
true exactly for a present, nonempty string. -/
def optTruthy : Option (List Char) → Bool
  | none => false
  | some s => !s.isEmpty

/-- The cross-reference placeholder `'{{ref|%s}}' % name`
(field.py line 232 / paragraph.py lines 232 and 253). -/
def refToken (name : List Char) : List Char :=
  [lbrace, lbrace] ++ S ("ref|") ++ name ++ [rbrace, rbrace]

namespace SimpleField

/-- Scanner for `re.sub(r'([-_ ].)', ...)` in `SimpleField.mapname`
(field.py lines 58-64): each non-overlapping occurrence of a separator
followed by a non-newline character is replaced by that character
upper-cased (`.` does not match a newline, so a separator followed by a
newline is left in place and scanning resumes at the newline). -/
def mapnameGo : List Char → List Char
  | [] => []
  | [c] => [c]
  | c :: d :: ds =>
    if c = '-' ∨ c = '_' ∨ c = ' ' then
      if d ≠ '\n' then Char.toUpper d :: mapnameGo ds
      else c :: mapnameGo (d :: ds)
    else c :: mapnameGo (d :: ds)

/-- `SimpleField.mapname(name, prefix)` (field.py lines 58-64): lower-case
the prefixed name, then collapse separator-letter pairs. -/
def mapname (name pre : List Char) : List Char :=
  mapnameGo (lowerStr (pre ++ name))

end SimpleField

/-- `re.sub(r'^"|"$', '', w)` (field.py line 117 / paragraph.py line 223):
remove one leading and one trailing double quote. -/
def stripQuotes (w : List Char) : List Char :=
  let w1 := match w with
    | '"' :: rest => rest
    | _ => w
  match w1.getLast? with
  | some '"' => w1.dropLast
  | _ => w1

namespace Paragraph

/-- The values that items of a paragraph can contribute to `markdown_lst`
in `Paragraph.markdown` (paragraph.py lines 172-274).  A list-valued item
is flattened by the loop's normalization (`if not isinstance(value, list):
value = [value]` followed by iteration), so the loop is embedded over the
flattened sequence of scalar values:
  * `fieldChar t` — a `FieldChar` proxy whose `fldCharType` is `t`;
  * `fieldCode instr` — a `FieldCode` proxy returned as itself (its own
    `markdown` saw fewer than two words or an unrecognized verb), carrying
    its instruction text;
  * `refTuple instr` — the `(field_code, None)` tuple that
    `FieldCode.markdown` returns for a `REF` instruction (field.py lines
    135-145; the second component is always `None` there);
  * `bookmarkStartV` / `bookmarkEndV` — bookmark proxies;
  * `breakV` — a page `Break`;
  * `strV s` — a plain string. -/
inductive MDVal where
  | fieldChar (fldCharType : List Char)
  | fieldCode (instr : List Char)
  | refTuple (instr : List Char)
  | bookmarkStartV
  | bookmarkEndV
  | breakV
  | strV (s : List Char)
  deriving DecidableEq, Repr

/-- The loop state of `Paragraph.markdown` (paragraph.py lines 166-186):
accumulated text, current field state, collected bookmarks, collected
instruction words, pending anchor, and the three flags. -/
structure LoopSt where
  text : List Char
  state : List Char
  bookmarks : List MDVal
  words : List (List Char)
  anchor : Option (List Char)
  added_begin_text : Bool
  added_open_bracket : Bool
  need_page_break : Bool
  deriving DecidableEq, Repr

/-- The loop state on entry (paragraph.py lines 166-181, for a paragraph
whose style does not open a fenced div, so the accumulated text starts
empty). -/
def initLoopSt : LoopSt :=
  ⟨[], S ("outer"), [], [], none, false, false, false⟩

/-- The field states recognized by the emission guards
(`state in {'outer', 'begin', 'separate', 'end'}`). -/
def stateSet : List (List Char) :=
  [S ("outer"), S ("begin"), S ("separate"), S ("end")]

/-- One iteration of the inner loop of `Paragraph.markdown`
(paragraph.py lines 187-274) on a single scalar value.  The
`assert False` branches (a tuple with a present bookmark, an unsupported
value type) cannot arise for `MDVal`, whose constructors cover exactly the
value shapes the items produce. -/
def procVal (st : LoopSt) (v : MDVal) : Except PyErr LoopSt :=
  match v with
  | .fieldChar t =>
    -- lines 188-207
    let st := { st with state := t }
    if t = S ("begin") then
      .ok { st with words := [], anchor := none, added_open_bracket := false,
                    added_begin_text := false }
    else if t = S ("end") then
      -- lines 196-207; `text[-1]` raises IndexError on an empty string
      let finishAnchor : LoopSt → LoopSt := fun st =>
        if optTruthy st.anchor then
          { st with text := st.text ++ '[' :: st.anchor.getD [] ++ [']'] }
        else st
      if st.added_open_bracket then
        match st.text.getLast? with
        | none => .error .indexError
        | some c =>
          let st :=
            if c = '[' then { st with text := st.text.dropLast }
            else { st with text := st.text ++ [']'] }
          .ok (finishAnchor st)
      else .ok (finishAnchor st)
    else .ok st
  | .fieldCode instr =>
    -- lines 208-233
    let st := { st with words := st.words ++ splitWs (pyStrip instr) }
    if st.words.length ≤ 1 then .ok st
    else if st.words.getD 0 [] = S ("DOCPROPERTY") then
      if st.state ∈ stateSet then
        let st :=
          if st.state ≠ S ("separate") ∨ st.added_begin_text = false then
            { st with text := st.text ++ '%' ::
                SimpleField.mapname (stripQuotes (st.words.getD 1 [])) []
                ++ ['%'] }
          else st
        if st.state = S ("begin") then
          .ok { st with added_begin_text := true }
        else .ok st
      else .ok st
    else if st.words.getD 0 [] = S ("REF") then
      if st.anchor = none then
        let st :=
          if st.added_open_bracket = false then
            { st with text := st.text ++ ['['], added_open_bracket := true }
          else st
        .ok { st with anchor := some (refToken (st.words.getD 1 [])) }
      else .ok st
    else .ok st
  | .bookmarkStartV =>
    -- lines 234-238
    .ok { st with bookmarks := st.bookmarks ++ [v] }
  | .bookmarkEndV =>
    -- lines 239-241
    .ok st
  | .refTuple instr =>
    -- lines 242-259 with bookmark_start always None (field.py line 145)
    let st :=
      if st.added_open_bracket = false then
        { st with text := st.text ++ ['['], added_open_bracket := true }
      else st
    let st := { st with words := st.words ++ splitWs (pyStrip instr) }
    if st.words.length > 1 ∧ st.anchor = none then
      .ok { st with anchor := some (refToken (st.words.getD 1 [])) }
    else .ok st
  | .breakV =>
    -- lines 260-263
    .ok { st with need_page_break := true }
  | .strV sv =>
    -- lines 264-270: 'begin' text is preferred to 'separate' text
    if st.state ∈ stateSet then
      let st :=
        if st.state ≠ S ("separate") ∨ st.added_begin_text = false then
          { st with text := st.text ++ sv }
        else st
      if st.state = S ("begin") ∧ pyStrip sv ≠ [] then
        .ok { st with added_begin_text := true }
      else .ok st
    else .ok st

/-- Run the loop of `Paragraph.markdown` over item values starting from a
given state, propagating any raised exception. -/
def runLoopFrom (st : LoopSt) : List MDVal → Except PyErr LoopSt
  | [] => .ok st
  | v :: vs =>
    match procVal st v with
    | .error e => .error e
    | .ok st1 => runLoopFrom st1 vs

/-- Run the loop of `Paragraph.markdown` over the flattened item values,
from the entry state. -/
def runLoop (vals : List MDVal) : Except PyErr LoopSt :=
  runLoopFrom initLoopSt vals

/-- The text accumulated by the loop of `Paragraph.markdown`. -/
def runText (vals : List MDVal) : Except PyErr (List Char) :=
  (runLoop vals).map (·.text)

end Paragraph

/-- C3: in a field bracketed by begin/separate/end field characters, text
seen in the `begin` state is emitted (and, when non-blank, marks "already
emitted"), after which `separate`-state text is suppressed; with no
non-blank begin-state text, the `separate`-state text is emitted.  The
rendered loop text for `begin` → A → `separate` → B → `end` is exactly A,
and for `begin` → `separate` → B → `end` it is exactly B. -/
theorem field_begin_separate_emission (A B : List Char)
    (hA : pyStrip A ≠ []) :
    Paragraph.runText [.fieldChar (S ("begin")), .strV A,
      .fieldChar (S ("separate")), .strV B, .fieldChar (S ("end"))] =
      .ok A ∧
    Paragraph.runText [.fieldChar (S ("begin")),
      .fieldChar (S ("separate")), .strV B, .fieldChar (S ("end"))] =
      .ok B := by
  constructor
  · simp +decide [Paragraph.runText, Paragraph.runLoop, Paragraph.runLoopFrom,
      Paragraph.procVal, Paragraph.initLoopSt, Paragraph.stateSet, hA,
      Except.map]
  · simp +decide [Paragraph.runText, Paragraph.runLoop, Paragraph.runLoopFrom,
      Paragraph.procVal, Paragraph.initLoopSt, Paragraph.stateSet,
      Except.map]

/-- Witness for the C3 theorem at the concrete strings A and B. -/
theorem field_begin_separate_emission_witness :
    Paragraph.runText [.fieldChar (S ("begin")), .strV (S ("A")),
      .fieldChar (S ("separate")), .strV (S ("B")), .fieldChar (S ("end"))] =
      .ok (S ("A")) ∧
    Paragraph.runText [.fieldChar (S ("begin")),
      .fieldChar (S ("separate")), .strV (S ("B")), .fieldChar (S ("end"))] =
      .ok (S ("B")) :=
  field_begin_separate_emission (S ("A")) (S ("B")) (by decide)

/-- Splitting a whitespace-free list yields a single word (or nothing when
it is empty), whatever has been accumulated so far. -/
theorem splitWsGo_no_ws (X : List Char) (h : ∀ c ∈ X, isWs c = false) :
    ∀ acc : List Char, splitWsGo acc X =
      if acc.reverse ++ X = [] then [] else [acc.reverse ++ X] := by
  induction X with
  | nil =>
    intro acc
    by_cases ha : acc = []
    · simp [splitWsGo, ha]
    · simp [splitWsGo, ha]
  | cons c cs ih =>
    intro acc
    have hc : isWs c = false := h c (List.mem_cons_self c cs)
    have ih' := ih (fun d hd => h d (List.mem_cons_of_mem c hd)) (c :: acc)
    simp only [splitWsGo, hc, Bool.false_eq_true, if_false, ih',
      List.reverse_cons]
    simp

/-- `lstrip` leaves a list alone when its head is not whitespace. -/
theorem trimLeft_cons_not_ws (c : Char) (l : List Char)
    (h : isWs c = false) : trimLeft (c :: l) = c :: l := by
  simp [trimLeft, h]

/-- Stripping is the identity on a `REF `-instruction whose bookmark name
is nonempty and whitespace-free. -/
theorem pyStrip_ref_instr (X : List Char) (hne : X ≠ [])
    (h : ∀ c ∈ X, isWs c = false) :
    pyStrip (S ("REF ") ++ X) = S ("REF ") ++ X := by
  rcases List.eq_nil_or_concat' X with rfl | ⟨Y, d, rfl⟩
  · exact absurd rfl hne
  have hd : isWs d = false := h d (by simp)
  unfold pyStrip
  have h1 : trimLeft (S ("REF ") ++ (Y ++ [d])) = S ("REF ") ++ (Y ++ [d]) :=
    trimLeft_cons_not_ws 'R' (S ("EF ") ++ (Y ++ [d])) (by decide)
  rw [h1]
  have h2 : (S ("REF ") ++ (Y ++ [d])).reverse =
      d :: (Y.reverse ++ (S ("REF ")).reverse) := by
    simp
  rw [h2, trimLeft_cons_not_ws d _ hd, ← h2, List.reverse_reverse]

/-- The stripped-and-split words of a `REF X` instruction text are
`["REF", X]` for a nonempty whitespace-free bookmark name X. -/
theorem ref_instr_words (X : List Char) (hne : X ≠ [])
    (h : ∀ c ∈ X, isWs c = false) :
    splitWs (pyStrip (S ("REF ") ++ X)) = [S ("REF"), X] := by
  rw [pyStrip_ref_instr X hne h]
  show splitWsGo [] ('R' :: 'E' :: 'F' :: ' ' :: X) = _
  simp +decide only [splitWsGo]
  rw [splitWsGo_no_ws X h []]
  simp [hne]
  rfl

/-- C5 (amended): for a field whose instruction is `REF X`, an opening
bracket is emitted once and the `{{ref|X}}` anchor is recorded; at the
`end` field character the open bracket is closed with `]` when the
accumulated text does not end in `[`, while a dangling trailing `[` is
removed instead (the code tests only the last character, not whether text
was emitted), and the anchor is then appended in brackets.  Hence
`begin` → `REF X` → `separate` → T → `end` yields `[T][{{ref|X}}]` for
every nonempty T whose last character is not `[`, and yields
`[{{ref|X}}]` when no text at all follows. -/
theorem ref_field_bracket_anchor_amended (X T : List Char) (hX : X ≠ [])
    (hXw : ∀ c ∈ X, isWs c = false) (hT : T ≠ [])
    (hTl : T.getLast? ≠ some '[') :
    Paragraph.runText [.fieldChar (S ("begin")), .refTuple (S ("REF ") ++ X),
      .fieldChar (S ("separate")), .strV T, .fieldChar (S ("end"))] =
      .ok ('[' :: T ++ [']'] ++ '[' :: refToken X ++ [']']) ∧
    Paragraph.runText [.fieldChar (S ("begin")), .refTuple (S ("REF ") ++ X),
      .fieldChar (S ("separate")), .fieldChar (S ("end"))] =
      .ok ('[' :: refToken X ++ [']']) := by
  have hw := ref_instr_words X hX hXw
  obtain ⟨d, hgl⟩ : ∃ d, T.getLast? = some d := by
    cases hgT : T.getLast? with
    | none => exact absurd (List.getLast?_eq_none_iff.mp hgT) hT
    | some d => exact ⟨d, rfl⟩
  have hd : ¬ d = '[' := fun hc => hTl (by rw [hgl, hc])
  have hgl2 : ('[' :: T).getLast? = some d := by
    rw [show ('[' :: T) = ['['] ++ T from rfl,
      List.getLast?_append_of_ne_nil _ hT, hgl]
  have htok : optTruthy (some (refToken X)) = true := by
    simp [optTruthy, refToken]
  constructor
  · simp +decide [Paragraph.runText, Paragraph.runLoop, Paragraph.runLoopFrom,
      Paragraph.procVal, Paragraph.initLoopSt, Paragraph.stateSet, hw,
      Except.map, hgl2, hd, htok]
  · simp +decide [Paragraph.runText, Paragraph.runLoop, Paragraph.runLoopFrom,
      Paragraph.procVal, Paragraph.initLoopSt, Paragraph.stateSet, hw,
      Except.map, htok]

/-- C5 (counterexample): for the separate-state text `[` — text was
emitted after the open bracket, yet the accumulated text ends in `[` — the
loop removes that character instead of closing the bracket, so the output
is not `[T][{{ref|X}}]` as the claim states. -/
theorem ref_field_bracket_counterexample :
    Paragraph.runText [.fieldChar (S ("begin")), .refTuple (S ("REF X")),
      .fieldChar (S ("separate")), .strV (S ("[")), .fieldChar (S ("end"))] ≠
      .ok ('[' :: S ("[") ++ [']'] ++ '[' :: refToken (S ("X")) ++ [']']) := by
  decide

/-- Witness for the amended C5 theorem at X and T concrete. -/
theorem ref_field_bracket_anchor_witness :
    Paragraph.runText [.fieldChar (S ("begin")),
      .refTuple (S ("REF ") ++ S ("X")), .fieldChar (S ("separate")),
      .strV (S ("T")), .fieldChar (S ("end"))] =
      .ok ('[' :: S ("T") ++ [']'] ++ '[' :: refToken (S ("X")) ++ [']']) ∧
    Paragraph.runText [.fieldChar (S ("begin")),
      .refTuple (S ("REF ") ++ S ("X")), .fieldChar (S ("separate")),
      .fieldChar (S ("end"))] =
      .ok ('[' :: refToken (S ("X")) ++ [']']) :=
  ref_field_bracket_anchor_amended (S ("X")) (S ("T")) (by decide)
    (by decide) (by decide) (by decide)

/-
  ==========================================================
  paragraph.py lines 314-327 — the emphasis-collapsing pass
  ==========================================================
-/

/-- The opening emphasis token for a marker character. -/
def openTok (ch : Char) : List Char := [lbrace, lbrace, ch, rbrace, rbrace]

/-- The closing emphasis token for a marker character. -/
def endTok (ch : Char) : List Char :=
  [lbrace, lbrace] ++ S ("end") ++ [ch] ++ [rbrace, rbrace]

/-- Lazy search of the regex tail `(.*?)(\s*){{endX}}`: find the least
length of the dot group — whose characters may not include a newline —
followed by a greedy whitespace run and the closing token.  Only the
maximal whitespace run can precede the token, since the token starts with
a non-whitespace character, so the greedy group needs no backtracking.
Returns the dot-group and whitespace-group lengths. -/
def findClose (endT : List Char) : List Char → Option (Nat × Nat)
  | [] => if endT.isPrefixOf ([] : List Char) then some (0, 0) else none
  | c :: cs =>
    let l4 := wsRunLen (c :: cs)
    if endT.isPrefixOf ((c :: cs).drop l4) then some (0, l4)
    else if c = '\n' then none
    else (findClose endT cs).map (fun p => (p.1 + 1, p.2))

/-- Fuel-driven worker for `emphSub`.  At each position where the opening
token matches, the match is completed as greedy whitespace (which never
needs backtracking: shrinking it only moves whitespace into the dot group,
which cannot make an impossible match possible) followed by `findClose`;
on success the groups are re-emitted in the order `\2\1\3\5\4` and the
scan resumes after the match, otherwise it advances one character. -/
def emphSubGo (openT endT : List Char) : Nat → List Char → List Char
  | 0, s => s
  | _ + 1, [] => []
  | n + 1, c :: cs =>
    if openT.isPrefixOf (c :: cs) then
      let rest := (c :: cs).drop openT.length
      let l2 := wsRunLen rest
      let rest2 := rest.drop l2
      match findClose endT rest2 with
      | some (l3, l4) =>
        (rest.take l2) ++ openT ++ (rest2.take l3) ++ endT ++
          ((rest2.drop l3).take l4) ++
          emphSubGo openT endT n ((rest2.drop (l3 + l4)).drop endT.length)
      | none => c :: emphSubGo openT endT n cs
    else c :: emphSubGo openT endT n cs

/-- `re.sub(r'({{X}})(\s*)(.*?)(\s*)({{endX}})', r'\2\1\3\5\4', text)`
(paragraph.py line 321): move whitespace just inside an emphasis span to
its outside.  `s.length` scan steps always suffice, as every step consumes
at least one input character. -/
def emphSub (ch : Char) (s : List Char) : List Char :=
  emphSubGo (openTok ch) (endTok ch) s.length s

/-- One iteration of the cleanup loop of `Paragraph.markdown`
(paragraph.py lines 317-327) for marker character `ch` with markup
replacement `md`. -/
def cleanStep (ch : Char) (md : List Char) (t : List Char) : List Char :=
  let t1 := replaceAll (endTok ch ++ openTok ch) [] t
  let t2 := emphSub ch t1
  let t3 := replaceAll (openTok ch ++ endTok ch) [] t2
  let t4 := replaceAll (openTok ch) md t3
  replaceAll (endTok ch) md t4

/-- The marker characters and their markup replacements, in the insertion
order of the dict literal at paragraph.py line 317. -/
def emphList : List (Char × List Char) :=
  [('c', ['`']), ('i', ['*']), ('b', ['*', '*']), ('B', ['*', '*', '*'])]

/-- The emphasis-collapsing cleanup pass of `Paragraph.markdown`
(paragraph.py lines 314-327). -/
def cleanup (t : List Char) : List Char :=
  emphList.foldl (fun t p => cleanStep p.1 p.2 t) t

/-- The eight emphasis tokens. -/
def emphToks : List (List Char) :=
  emphList.foldr (fun p acc => openTok p.1 :: endTok p.1 :: acc) []

/-- A text is token-free when none of the eight emphasis tokens occurs in
it. -/
def tokFree (s : List Char) : Bool :=
  emphToks.all (fun t => !(containsSub t s))

/-- Substring occurrence is inherited by prefixes of the pattern. -/
theorem containsSub_of_isPrefixOf (p q s : List Char)
    (hpq : p.isPrefixOf q = true) (h : containsSub q s = true) :
    containsSub p s = true := by
  induction s with
  | nil =>
    simp [containsSub] at h ⊢
    subst h
    simpa [List.isPrefixOf_iff_prefix] using hpq
  | cons c cs ih =>
    simp only [containsSub, Bool.or_eq_true] at h ⊢
    rcases h with h | h
    · left
      rw [List.isPrefixOf_iff_prefix] at *
      exact hpq.trans h
    · right
      exact ih h

/-- A pattern that contains an absent token is itself absent. -/
theorem containsSub_false_of_part (p q s : List Char)
    (hpq : p.isPrefixOf q = true) (h : containsSub p s = false) :
    containsSub q s = false := by
  cases hc : containsSub q s with
  | false => rfl
  | true => exact absurd (containsSub_of_isPrefixOf p q s hpq hc) (by simp [h])

/-- Replacing an absent pattern is the identity. -/
theorem replaceAllGo_no_occurrence (pat repl : List Char) :
    ∀ (n : Nat) (s : List Char), containsSub pat s = false →
      replaceAllGo pat repl n s = s := by
  intro n
  induction n with
  | zero => intro s _; rfl
  | succ n ih =>
    intro s h
    cases s with
    | nil => rfl
    | cons c cs =>
      simp only [containsSub, Bool.or_eq_false_iff] at h
      simp [replaceAllGo, h.1, ih cs h.2]

/-- `str.replace` with an absent pattern is the identity. -/
theorem replaceAll_no_occurrence (pat repl s : List Char)
    (h : containsSub pat s = false) : replaceAll pat repl s = s :=
  replaceAllGo_no_occurrence pat repl s.length s h

/-- The emphasis substitution with an absent opening token is the
identity. -/
theorem emphSubGo_no_occurrence (openT endT : List Char) :
    ∀ (n : Nat) (s : List Char), containsSub openT s = false →
      emphSubGo openT endT n s = s := by
  intro n
  induction n with
  | zero => intro s _; rfl
  | succ n ih =>
    intro s h
    cases s with
    | nil => rfl
    | cons c cs =>
      simp only [containsSub, Bool.or_eq_false_iff] at h
      simp [emphSubGo, h.1, ih cs h.2]

/-- `emphSub` with an absent opening token is the identity. -/
theorem emphSub_no_occurrence (ch : Char) (s : List Char)
    (h : containsSub (openTok ch) s = false) : emphSub ch s = s :=
  emphSubGo_no_occurrence (openTok ch) (endTok ch) s.length s h

/-- A cleanup iteration is the identity on a text free of that marker's
tokens. -/
theorem cleanStep_tokFree (ch : Char) (md t : List Char)
    (ho : containsSub (openTok ch) t = false)
    (he : containsSub (endTok ch) t = false) : cleanStep ch md t = t := by
  have hp1 : (endTok ch).isPrefixOf (endTok ch ++ openTok ch) = true := by
    rw [List.isPrefixOf_iff_prefix]; exact List.prefix_append _ _
  have hp2 : (openTok ch).isPrefixOf (openTok ch ++ endTok ch) = true := by
    rw [List.isPrefixOf_iff_prefix]; exact List.prefix_append _ _
  unfold cleanStep
  simp only [replaceAll_no_occurrence _ _ _
      (containsSub_false_of_part _ _ _ hp1 he),
    emphSub_no_occurrence _ _ ho,
    replaceAll_no_occurrence _ _ _
      (containsSub_false_of_part _ _ _ hp2 ho),
    replaceAll_no_occurrence _ _ _ ho,
    replaceAll_no_occurrence _ _ _ he]

/-- Unpacking of `tokFree` into its eight occurrence facts. -/
theorem tokFree_iff (t : List Char) : tokFree t = true ↔
    (containsSub (openTok 'c') t = false ∧ containsSub (endTok 'c') t = false)
    ∧ (containsSub (openTok 'i') t = false ∧
       containsSub (endTok 'i') t = false)
    ∧ (containsSub (openTok 'b') t = false ∧
       containsSub (endTok 'b') t = false)
    ∧ (containsSub (openTok 'B') t = false ∧
       containsSub (endTok 'B') t = false) := by
  unfold tokFree emphToks emphList
  simp only [List.foldr, List.all_cons, List.all_nil, Bool.and_eq_true,
    Bool.not_eq_true', Bool.and_true]
  tauto

/-- The cleanup pass is the identity on token-free text. -/
theorem cleanup_tokFree (t : List Char) (h : tokFree t = true) :
    cleanup t = t := by
  obtain ⟨⟨h1, h2⟩, ⟨h3, h4⟩, ⟨h5, h6⟩, ⟨h7, h8⟩⟩ := (tokFree_iff t).mp h
  simp only [cleanup, emphList, List.foldl]
  rw [cleanStep_tokFree 'c' _ t h1 h2, cleanStep_tokFree 'i' _ t h3 h4,
    cleanStep_tokFree 'b' _ t h5 h6, cleanStep_tokFree 'B' _ t h7 h8]

/-- C7 (amended): the emphasis-collapsing pass is idempotent on every
input whose single-pass output is free of emphasis tokens (which covers
ordinary paragraph text); it is not idempotent in general, because
removing a `{{X}}{{endX}}` pair can splice the surrounding characters into
a new token of a marker already processed earlier in the same pass, which
then survives to the output and is rewritten by a second application (see
the counterexample). -/
theorem cleanup_idempotent_on_token_free (s : List Char)
    (h : tokFree (cleanup s) = true) :
    cleanup (cleanup s) = cleanup s :=
  cleanup_tokFree (cleanup s) h

/-- C7 (counterexample): on the input `{{{{b}}{{endb}}c}}` one pass
removes the empty bold pair and leaves `{{c}}`, and a second pass turns
that into a backtick, so the pass applied twice differs from the pass
applied once. -/
theorem cleanup_idempotence_counterexample :
    cleanup (cleanup ([lbrace, lbrace] ++ openTok 'b' ++ endTok 'b' ++
        ['c', rbrace, rbrace])) ≠
      cleanup ([lbrace, lbrace] ++ openTok 'b' ++ endTok 'b' ++
        ['c', rbrace, rbrace]) := by
  decide

/-- Witness for the amended C7 theorem on a concrete bolded text. -/
theorem cleanup_idempotent_witness :
    tokFree (cleanup (S ("a ") ++ openTok 'b' ++ S ("x") ++ endTok 'b' ++
      S (" y"))) = true ∧
    cleanup (cleanup (S ("a ") ++ openTok 'b' ++ S ("x") ++ endTok 'b' ++
      S (" y"))) =
    cleanup (S ("a ") ++ openTok 'b' ++ S ("x") ++ endTok 'b' ++
      S (" y")) :=
  ⟨by decide, cleanup_idempotent_on_token_free _ (by decide)⟩

/-
  ==========================================================
  paragraph.py lines 341-374 — page break, newline
  suppression, previous-style update and paragraph discard
  ==========================================================
-/

/-- Matcher for one placeholder occurrence of the pattern
`{{\w+(=.+?)?}}\s*` (paragraph.py line 371) at the head of the input,
returning the consumed length.  Only the maximal `\w+` run can match,
since a shorter one leaves a word character where `=` or `}` is required;
the optional group is tried first (greedy `?`) with a lazy `.+?` whose
characters may not include a newline; the trailing `\s*` is greedy with
nothing after it. -/
def phMatchLen (s : List Char) : Option Nat :=
  match s with
  | '{' :: '{' :: rest =>
    let w := (rest.takeWhile (fun c => c.isAlphanum || c = '_')).length
    if w = 0 then none
    else
      match rest.drop w with
      | '=' :: rest2 =>
        match lazyFindBraces rest2 with
        | some j =>
          some (2 + w + 1 + j + 2 + wsRunLen (rest2.drop (j + 2)))
        | none => none
      | '}' :: '}' :: rest2 => some (2 + w + 2 + wsRunLen rest2)
      | _ => none
  | _ => none
where
  /-- Least `j ≥ 1` such that the first `j` characters contain no newline
  and `}}` follows them. -/
  lazyFindBraces : List Char → Option Nat
    | [] => none
    | c :: cs =>
      if c = '\n' then none
      else if ['}', '}'].isPrefixOf cs then some 1
      else (lazyFindBraces cs).map (· + 1)

/-- Fuel-driven worker for `rmPlaceholders`. -/
def rmPlaceholdersGo : Nat → List Char → List Char
  | 0, s => s
  | _ + 1, [] => []
  | n + 1, c :: cs =>
    match phMatchLen (c :: cs) with
    | some k => rmPlaceholdersGo n ((c :: cs).drop k)
    | none => c :: rmPlaceholdersGo n cs

/-- `re.sub(r'{{\w+(=.+?)?}}\s*', r'', text)` (paragraph.py line 371):
delete every placeholder token together with its trailing whitespace.
Every matched placeholder consumes at least four characters, so `s.length`
scan steps always suffice. -/
def rmPlaceholders (s : List Char) : List Char :=
  rmPlaceholdersGo s.length s

/-- `re.match(r'toc \d+|table of figures', style_name)` (paragraph.py
line 364): an anchored match of either alternative. -/
def tocMatch (styleName : List Char) : Bool :=
  ((S ("toc ")).isPrefixOf styleName &&
    (match styleName.drop 4 with
     | c :: _ => c.isDigit
     | [] => false)) ||
  (S ("table of figures")).isPrefixOf styleName

namespace Paragraph

/-- Lines 341-357 of paragraph.py: insert the page-break markup, close an
open fenced div, or prepend the separating newline unless both the
previous and the current style are in the no-newline set. -/
def adjustText (style_name text0 : List Char) (use_div need_pb : Bool)
    (prev : Option (List Char)) : List Char :=
  let text1 :=
    if need_pb then
      S ("::: new-page :::") ++ ['\n'] ++ S (":::") ++
        (if pyStrip text0 = [] then [] else ['\n']) ++ text0
    else text0
  if use_div then text1 ++ '\n' :: S ("::::::")
  else
    let nns := [S ("code"), S ("list paragraph"), S ("plain text")]
    if (match prev with
        | some p => !(nns.contains p)
        | none => true) || !(nns.contains style_name) then
      '\n' :: text1
    else text1

/-- Lines 341-374 of paragraph.py: the tail of `Paragraph.markdown`.
Returns the paragraph's rendered text (`none` when the paragraph is
discarded) together with the class-wide `previous_style_name` as left
behind.  The style name is remembered unconditionally at line 360, before
the two discard decisions. -/
def finalize (style_name text0 : List Char) (use_div need_pb : Bool)
    (prev : Option (List Char)) :
    Option (List Char) × Option (List Char) :=
  if tocMatch style_name then (none, some style_name)
  else if pyStrip (rmPlaceholders
      (adjustText style_name text0 use_div need_pb prev)) = [] then
    (none, some style_name)
  else (some (adjustText style_name text0 use_div need_pb prev),
    some style_name)

end Paragraph

/-- C4: a paragraph whose adjusted rendered text is empty once placeholder
tokens are stripped is discarded (`markdown` returns `None`), as is a
paragraph whose lower-cased style matches the table-of-contents /
table-of-figures pattern; in every case — discarded or not — the
previous-style state has already been set to this paragraph's style name
before the discard decision, so the next paragraph's blank-line
suppression sees the discarded paragraph's style. -/
theorem discarded_paragraph_updates_prev_style (style_name text0 : List Char)
    (use_div need_pb : Bool) (prev : Option (List Char)) :
    (Paragraph.finalize style_name text0 use_div need_pb prev).2 =
      some style_name ∧
    (tocMatch style_name = true →
      (Paragraph.finalize style_name text0 use_div need_pb prev).1 =
        none) ∧
    (pyStrip (rmPlaceholders
        (Paragraph.adjustText style_name text0 use_div need_pb prev)) =
        [] →
      (Paragraph.finalize style_name text0 use_div need_pb prev).1 =
        none) := by
  refine ⟨?_, ?_, ?_⟩
  · unfold Paragraph.finalize
    split
    · rfl
    · split
      · rfl
      · rfl
  · intro h
    unfold Paragraph.finalize
    simp [h]
  · intro h
    unfold Paragraph.finalize
    split
    · rfl
    · simp [h]

/-- Witness for the C4 theorem: a paragraph holding only an indent
placeholder and a space is discarded, yet the previous style is updated. -/
theorem discarded_paragraph_witness :
    (Paragraph.finalize (S ("normal"))
      ([lbrace, lbrace] ++ S ("indent=1") ++ [rbrace, rbrace, ' '])
      false false none).2 = some (S ("normal")) ∧
    (Paragraph.finalize (S ("normal"))
      ([lbrace, lbrace] ++ S ("indent=1") ++ [rbrace, rbrace, ' '])
      false false none).1 = none :=
  ⟨(discarded_paragraph_updates_prev_style (S ("normal")) _ false false
      none).1,
   (discarded_paragraph_updates_prev_style (S ("normal")) _ false false
      none).2.2 (by decide)⟩

/-
  ==========================================================
  src/docx/shared.py — Parented.items and the Undefined
  diagnostic stand-in
  ==========================================================
-/

/-- A renderer (proxy) class as registered in `Parented._clsmap`, together
with its `stop` flag from `Parented._stopmap` (shared.py lines 256-264). -/
structure RCls where
  name : List Char
  stop : Bool
  deriving DecidableEq, Repr

/-- An lxml element: a qualified tag and child elements. -/
inductive Elem where
  | mk (tag : List Char) (children : List Elem)

/-- The qualified tag of an element. -/
def Elem.tag : Elem → List Char
  | .mk t _ => t

/-- The child elements of an element. -/
def Elem.children : Elem → List Elem
  | .mk _ cs => cs

/-- The part of a tag after its last right brace: the second piece of
`rsplit(..., 1)` on a tag that contains a right brace. -/
def localTag (t : List Char) : List Char :=
  (t.reverse.takeWhile (fun c => c ≠ rbrace)).reverse

/-- `_, tag = _elem.tag.rsplit('}', 1)` (shared.py line 275): on a tag
containing a right brace, `rsplit` yields two pieces and the two-target
unpacking binds `tag` to the part after the last one; on a brace-free tag
`rsplit` yields a single piece and the unpacking raises `ValueError`. -/
def localPart (t : List Char) : Except PyErr (List Char) :=
  if t.contains rbrace then .ok (localTag t)
  else .error .valueError

/-- An entry of the list built by `Parented.items` (shared.py lines
266-293): either a renderer proxy for a registered tag, or the `Undefined`
diagnostic stand-in recording the unmatched local tag it reported. -/
inductive RItem where
  | proxy (cls : RCls) (elem : Elem)
  | undefined (tag : List Char)

/-- `Undefined.__init__` sets `self.items = []` (shared.py line 280):
the stand-in exposes no child items. -/
def undefItems (_tag : List Char) : List RItem := []

/-- `Undefined.__init__` sets `self.markdown = ''` (shared.py line 281):
the stand-in renders as the empty string. -/
def undefMarkdown (_tag : List Char) : List Char := []

/-- The list comprehension of `Parented.items` (shared.py lines 292-293),
left to right: every child element is looked up in `_clsmap`; an
unregistered child becomes an `Undefined` stand-in, whose constructor
first unpacks the tag (shared.py line 275, raising `ValueError` on a
brace-free tag, before any diagnostic is written) and then reports the
unmatched local tag.  Returns the items (or the exception that aborted
the comprehension) together with the diagnostics written before the
corresponding exit. -/
def itemsGo (cmap : List (List Char × RCls)) :
    List Elem → Except PyErr (List RItem) × List (List Char)
  | [] => (.ok [], [])
  | e :: es =>
    match lookupA cmap e.tag with
    | some c =>
      let r := itemsGo cmap es
      (r.1.map (fun its => RItem.proxy c e :: its), r.2)
    | none =>
      match localPart e.tag with
      | .error err => (.error err, [])
      | .ok tag =>
        let r := itemsGo cmap es
        (r.1.map (fun its => RItem.undefined tag :: its), tag :: r.2)

/-- `Parented.items` (shared.py lines 266-293) with the stderr diagnostic
channel made explicit: if the node's own class has the `stop` flag the
result is empty, otherwise the children are processed by `itemsGo`. -/
def itemsOfElems (cmap : List (List Char × RCls)) (selfStop : Bool)
    (children : List Elem) :
    Except PyErr (List RItem) × List (List Char) :=
  if selfStop then (.ok [], []) else itemsGo cmap children

/-- C8 (amended): for a node whose class is not marked terminal, and whose
unregistered children all carry a namespace-qualified tag (one containing
a right brace), `items` succeeds with one entry per child — traversal is
not aborted — in which each unregistered child is replaced by the
`Undefined` stand-in carrying its local tag, whose `items` are empty and
whose `markdown` is the empty string, and every unmatched local tag is
reported on the diagnostic channel.  Without that qualification the
operation is not error-free: an unregistered child whose tag contains no
right brace raises `ValueError` in the stand-in constructor (see the
counterexample). -/
theorem unregistered_child_standin (cmap : List (List Char × RCls))
    (selfStop : Bool) (children : List Elem) (h : selfStop = false)
    (hb : ∀ e ∈ children, lookupA cmap e.tag = none →
      e.tag.contains rbrace = true) :
    (itemsOfElems cmap selfStop children).1 =
      .ok (children.map (fun e =>
        match lookupA cmap e.tag with
        | some c => RItem.proxy c e
        | none => RItem.undefined (localTag e.tag))) ∧
    (itemsOfElems cmap selfStop children).2 =
      (children.filter
        (fun e => (lookupA cmap e.tag).isNone)).map
        (fun e => localTag e.tag) ∧
    (∀ e ∈ children, lookupA cmap e.tag = none →
      RItem.undefined (localTag e.tag) ∈
        children.map (fun e =>
          match lookupA cmap e.tag with
          | some c => RItem.proxy c e
          | none => RItem.undefined (localTag e.tag)) ∧
      undefItems (localTag e.tag) = [] ∧
      undefMarkdown (localTag e.tag) = [] ∧
      localTag e.tag ∈ (itemsOfElems cmap selfStop children).2) := by
  subst h
  have hmain : ∀ chs : List Elem,
      (∀ e ∈ chs, lookupA cmap e.tag = none →
        e.tag.contains rbrace = true) →
      itemsGo cmap chs =
        (.ok (chs.map (fun e =>
          match lookupA cmap e.tag with
          | some c => RItem.proxy c e
          | none => RItem.undefined (localTag e.tag))),
         (chs.filter (fun e => (lookupA cmap e.tag).isNone)).map
          (fun e => localTag e.tag)) := by
    intro chs
    induction chs with
    | nil => intro _; rfl
    | cons e es ih =>
      intro hbs
      have ihs := ih (fun d hd => hbs d (List.mem_cons_of_mem e hd))
      unfold itemsGo
      cases hl : lookupA cmap e.tag with
      | some c =>
        simp [hl, ihs, Except.map]
      | none =>
        have hc : e.tag.contains rbrace = true :=
          hbs e (List.mem_cons_self e es) hl
        have hm : rbrace ∈ e.tag := by simpa using hc
        have hlp : localPart e.tag = .ok (localTag e.tag) := by
          simp [localPart, hm]
        simp [hl, hlp, ihs, Except.map]
  refine ⟨?_, ?_, ?_⟩
  · show (itemsGo cmap children).1 = _
    rw [hmain children hb]
  · show (itemsGo cmap children).2 = _
    rw [hmain children hb]
  · intro e he hl
    refine ⟨?_, rfl, rfl, ?_⟩
    · rw [List.mem_map]
      exact ⟨e, he, by rw [hl]⟩
    · show localTag e.tag ∈ (itemsGo cmap children).2
      rw [hmain children hb]
      rw [List.mem_map]
      exact ⟨e, List.mem_filter.mpr ⟨he, by rw [hl]; rfl⟩, rfl⟩

/-- C8 (counterexample): an unregistered child whose tag contains no
right brace does abort the traversal — the `Undefined` constructor raises
`ValueError` from the two-target unpacking at shared.py line 275 (before
any diagnostic is written), refuting the claim that no error is raised. -/
theorem unregistered_child_standin_counterexample :
    (itemsOfElems [] false [Elem.mk (S ("drawing")) []]).1 =
      .error PyErr.valueError ∧
    (itemsOfElems [] false [Elem.mk (S ("drawing")) []]).2 = [] :=
  ⟨rfl, rfl⟩

/-- Witness for the amended C8 theorem: with only the paragraph tag
registered and namespace-qualified children, the unregistered drawing
child becomes a reported stand-in and the other child its proxy. -/
theorem unregistered_child_standin_witness :
    (itemsOfElems
      [([lbrace] ++ S ("ns") ++ [rbrace] ++ S ("p"),
        ⟨S ("Paragraph"), false⟩)] false
      [Elem.mk ([lbrace] ++ S ("ns") ++ [rbrace] ++ S ("drawing")) [],
       Elem.mk ([lbrace] ++ S ("ns") ++ [rbrace] ++ S ("p")) []]
      ).1 =
      .ok [RItem.undefined (S ("drawing")),
        RItem.proxy ⟨S ("Paragraph"), false⟩
          (Elem.mk ([lbrace] ++ S ("ns") ++ [rbrace] ++ S ("p")) [])] ∧
    (itemsOfElems
      [([lbrace] ++ S ("ns") ++ [rbrace] ++ S ("p"),
        ⟨S ("Paragraph"), false⟩)] false
      [Elem.mk ([lbrace] ++ S ("ns") ++ [rbrace] ++ S ("drawing")) [],
       Elem.mk ([lbrace] ++ S ("ns") ++ [rbrace] ++ S ("p")) []]
      ).2 = [S ("drawing")] ∧
    undefItems (S ("drawing")) = [] ∧
    undefMarkdown (S ("drawing")) = [] := by
  have h := unregistered_child_standin
    [([lbrace] ++ S ("ns") ++ [rbrace] ++ S ("p"),
      ⟨S ("Paragraph"), false⟩)] false
    [Elem.mk ([lbrace] ++ S ("ns") ++ [rbrace] ++ S ("drawing")) [],
     Elem.mk ([lbrace] ++ S ("ns") ++ [rbrace] ++ S ("p")) []] rfl
    (by decide)
  exact ⟨h.1.trans rfl, h.2.1.trans rfl, rfl, rfl⟩

/-
  ==========================================================
  src/docx/text/hyperlink.py — Hyperlink.markdown
  ==========================================================
-/

namespace Hyperlink

/-- The string-concatenation loop of `Hyperlink.markdown` (hyperlink.py
lines 24-31): only string-valued item markdown contributes (list-valued
items are flattened by the same normalization as in `Paragraph.markdown`,
so the input is the flattened value sequence). -/
def concatStrings (vals : List Paragraph.MDVal) : List Char :=
  vals.foldl
    (fun t v =>
      match v with
      | .strV sv => t ++ sv
      | _ => t) []

/-- `Hyperlink.markdown` (hyperlink.py lines 21-46).  `anchor` and `rid`
are the element's optional attributes (`CT_Hyperlink`, oxml/text/
hyperlink.py lines 13-21); `rels` maps a relationship id to its
`target_ref`.  The assertion at line 35 demands, in Python truthiness,
exactly one of anchor and rid present and nonempty; line 41 asserts that
the rid is a known relationship. -/
def markdown (vals : List Paragraph.MDVal) (anchor rid : Option (List Char))
    (rels : List (List Char × List Char)) : Except PyErr (List Char) :=
  let text := concatStrings vals
  if !((optTruthy anchor || optTruthy rid) &&
       !(optTruthy anchor && optTruthy rid)) then
    .error .assertError
  else if optTruthy anchor then
    -- line 39: '[%s][%s]' with the '{{ref|...}}' token, using [] rather
    -- than () so that bookmark resolution can rewrite them
    .ok ('[' :: text ++ [']'] ++ '[' :: refToken (anchor.getD []) ++ [']'])
  else
    match rid with
    | some r =>
      match lookupA rels r with
      | some target =>
        if text = target then .ok ('<' :: target ++ ['>'])
        else .ok ('[' :: text ++ [']', '('] ++ target ++ [')'])
      | none => .error .assertError
    | none => .error .assertError

end Hyperlink

/-- C10: exactly one of an anchor or a relationship id must be present
(both or neither fail the assertion); with a relationship id whose target
equals the concatenated child text the rendering is `<target>`, with a
differing text it is `[text](target)`, and with an anchor it is
`[text][{{ref|anchor}}]` — square brackets, so that bookmark resolution
can rewrite them later. -/
theorem hyperlink_markdown_cases (vals : List Paragraph.MDVal)
    (a r target : List Char) (rels : List (List Char × List Char))
    (ha : a ≠ []) (hr : r ≠ []) (hrel : lookupA rels r = some target) :
    Hyperlink.markdown vals (some a) none rels =
      .ok ('[' :: Hyperlink.concatStrings vals ++ [']'] ++
        '[' :: refToken a ++ [']']) ∧
    (Hyperlink.concatStrings vals = target →
      Hyperlink.markdown vals none (some r) rels =
        .ok ('<' :: target ++ ['>'])) ∧
    (Hyperlink.concatStrings vals ≠ target →
      Hyperlink.markdown vals none (some r) rels =
        .ok ('[' :: Hyperlink.concatStrings vals ++ [']', '('] ++
          target ++ [')'])) ∧
    Hyperlink.markdown vals none none rels = .error .assertError ∧
    Hyperlink.markdown vals (some a) (some r) rels =
      .error .assertError := by
  have hta : optTruthy (some a) = true := by
    simp [optTruthy, ha]
  have htr : optTruthy (some r) = true := by
    simp [optTruthy, hr]
  refine ⟨?_, ?_, ?_, ?_, ?_⟩
  · simp [Hyperlink.markdown, hta, optTruthy, ha]
  · intro he
    simp [Hyperlink.markdown, htr, optTruthy, hrel, he, hr]
  · intro he
    simp [Hyperlink.markdown, htr, optTruthy, hrel, he, hr]
  · simp [Hyperlink.markdown, optTruthy]
  · simp [Hyperlink.markdown, hta, htr]

/-- Witness for the C10 theorem with a one-run link text, an anchor, and a
registered relationship. -/
theorem hyperlink_markdown_cases_witness :
    Hyperlink.markdown [.strV (S ("here"))] (some (S ("bm1"))) none
      [(S ("rId1"), S ("here"))] =
      .ok ('[' :: Hyperlink.concatStrings [.strV (S ("here"))] ++ [']'] ++
        '[' :: refToken (S ("bm1")) ++ [']']) ∧
    (Hyperlink.concatStrings [.strV (S ("here"))] = S ("here") →
      Hyperlink.markdown [.strV (S ("here"))] none (some (S ("rId1")))
        [(S ("rId1"), S ("here"))] = .ok ('<' :: S ("here") ++ ['>'])) ∧
    (Hyperlink.concatStrings [.strV (S ("here"))] ≠ S ("here") →
      Hyperlink.markdown [.strV (S ("here"))] none (some (S ("rId1")))
        [(S ("rId1"), S ("here"))] =
        .ok ('[' :: Hyperlink.concatStrings [.strV (S ("here"))] ++
          [']', '('] ++ S ("here") ++ [')'])) ∧
    Hyperlink.markdown [.strV (S ("here"))] none none
      [(S ("rId1"), S ("here"))] = .error .assertError ∧
    Hyperlink.markdown [.strV (S ("here"))] (some (S ("bm1")))
      (some (S ("rId1"))) [(S ("rId1"), S ("here"))] =
      .error .assertError :=
  hyperlink_markdown_cases [.strV (S ("here"))] (S ("bm1")) (S ("rId1"))
    (S ("here")) [(S ("rId1"), S ("here"))] (by decide) (by decide)
    (by decide)
